import Mathlib

/-!
Verification of the notification fan-out dispatch engine.

The development shallowly embeds the two channel adapters of the repository:

* `FirebaseNotifier.send` (batch-oriented adapter): chunks the recipient list
  into blocks of 500, submits each chunk as one rate-limited unit, dispatches
  every recipient of a chunk with per-recipient error isolation.
* `WebPushNotifier.send` (concurrency-bounded adapter): decodes every
  recipient identifier into a subscription record, then dispatches each
  recipient as its own rate-limited unit.

External collaborators (the Firebase messaging client, the web-push library
and `JSON.parse`) are passed in as capability parameters, following the
capability contracts of the specification; concrete toy capabilities are
supplied for closed instantiations.  Asynchronous execution is embedded
deterministically: the value-level behaviour of each adapter (which results
are produced, from which inputs) does not depend on completion order, and
the temporal claims are settled over explicit bookkeeping models of the
loops in question.
-/

/-- JavaScript `x || d` on an optional string field: `undefined` and the
empty string are falsy, any other string is returned unchanged. -/
def jsOrString (o : Option String) (d : String) : String :=
  match o with
  | none => d
  | some s => if s = "" then d else s

/-- JavaScript `array.map` with a throwing callback: the callback runs left
to right and the first exception aborts the whole map. Embeds
`userIds.map((id) => JSON.parse(id))`. -/
def mapJs (f : α → Except ε β) : List α → Except ε (List β)
  | [] => .ok []
  | a :: as =>
    match f a with
    | .error e => .error e
    | .ok b =>
      match mapJs f as with
      | .error e => .error e
      | .ok bs => .ok (b :: bs)

/-- JavaScript callback index bookkeeping: pairs every element of the list
with its position, starting at `i`. -/
def withIdx : Nat → List α → List (Nat × α)
  | _, [] => []
  | i, a :: as => (i, a) :: withIdx (i + 1) as

/-- One per-recipient outcome record, `{status, recipient, response?, error?}`
from the adapters' return type. The transport response is opaque (`any` in
the source), so it is a type parameter. -/
structure DispatchResult (ρ : Type) where
  status : String
  recipient : String
  response : Option ρ := none
  error : Option String := none
deriving DecidableEq

/-! ## Batch-oriented adapter (`FirebaseNotifier`) -/

/-- One entry of the optional `meta` array of `FirebaseNotifier.send`
(`FirebaseNotificationOptions`): every field is optional. -/
structure FirebaseMeta where
  title : Option String := none
  body : Option String := none
  data : Option (List (String × String)) := none
  dryRun : Option Bool := none
deriving DecidableEq

/-- The `admin.messaging.MessagingPayload` built by `FirebaseNotifier.send`:
notification title and body plus the structured data mapping. -/
structure MessagingPayload where
  title : String
  body : String
  data : List (String × String)
deriving DecidableEq

/-- The recursion worker of `chunkArray`, structurally recursive on a fuel
bound so that it computes by reduction: one chunk of `chunkSize` elements
is split off per step, and `fuel ≥ array.length` guarantees the fuel is
never exhausted (each step consumes at least one element). -/
def chunkArrayGo : Nat → List α → Nat → List (List α)
  | _, [], _ => []
  | _, _ :: _, 0 => []
  | 0, _ :: _, _ + 1 => []
  | fuel + 1, a :: as, cs + 1 =>
    ((a :: as).take (cs + 1)) :: chunkArrayGo fuel ((a :: as).drop (cs + 1)) (cs + 1)

/-- `FirebaseNotifier.chunkArray`: `for (let i = 0; i < len; i += chunkSize)
chunks.push(array.slice(i, i + chunkSize))`. The source loop would not
terminate for `chunkSize = 0`; it is only ever invoked with 500, and the
embedding returns `[]` in that unreachable case. -/
def chunkArray (array : List α) (chunkSize : Nat) : List (List α) :=
  chunkArrayGo array.length array chunkSize

/-- The payload construction of `FirebaseNotifier.send`:
`title: userMeta?.title || "Default Notification"`, `body: userMeta?.body
|| ""`, `data: userMeta?.data || {}`. -/
def buildFirebasePayload (userMeta : Option FirebaseMeta) : MessagingPayload :=
  { title := jsOrString (userMeta.bind (·.title)) "Default Notification"
    body := jsOrString (userMeta.bind (·.body)) ""
    data := (userMeta.bind (·.data)).getD [] }

/-- The body of the per-recipient callback inside `FirebaseNotifier.send`:
look up `meta[index]` (with the callback's own `index`), build the payload,
invoke the messaging capability with `userMeta?.dryRun || false`, and record
either a success or a failure result for this recipient. -/
def firebaseSendRec {ρ : Type} (cap : String → MessagingPayload → Bool → Except String ρ)
    (meta : Option (List FirebaseMeta)) (index : Nat) (userId : String) : DispatchResult ρ :=
  let userMeta : Option FirebaseMeta := meta.bind (fun m => m[index]?)
  let payload := buildFirebasePayload userMeta
  match cap userId payload ((userMeta.bind (·.dryRun)).getD false) with
  | .ok response => { status := "success", recipient := userId, response := some response }
  | .error e => { status := "failed", recipient := userId, error := some e }

/-- The results contributed by one chunk of `FirebaseNotifier.send`:
`tokens.map(async (userId, index) => ...)`, each callback receiving its
chunk-local index. -/
def chunkResults {ρ : Type} (cap : String → MessagingPayload → Bool → Except String ρ)
    (meta : Option (List FirebaseMeta)) (tokens : List String) : List (DispatchResult ρ) :=
  (withIdx 0 tokens).map (fun p => firebaseSendRec cap meta p.1 p.2)

/-- `FirebaseNotifier.send`: chunk the recipients into blocks of 500 and
accumulate, chunk after chunk, the per-recipient results into the shared
`results` array. Result order within a chunk is fixed to submission order
in this embedding; no settled claim depends on the order within a chunk. -/
def FirebaseNotifier.send {ρ : Type} (cap : String → MessagingPayload → Bool → Except String ρ)
    (userIds : List String) (meta : Option (List FirebaseMeta)) : List (DispatchResult ρ) :=
  (chunkArray userIds 500).foldl (fun results tokens => results ++ chunkResults cap meta tokens) []

/-! ## Concurrency-bounded adapter (`WebPushNotifier`) -/

/-- A decoded `PushSubscription`: the adapter only ever reads `endpoint`;
the remaining fields are kept as an opaque key map. -/
structure PushSubscription where
  endpoint : String
  keys : List (String × String) := []
deriving DecidableEq

/-- One entry of the `meta` array of `WebPushNotifier.send` (`WebPush`):
all fields optional. Signing details and headers are opaque pass-through
options and are omitted; no claim mentions them. -/
structure WebPushMeta where
  title : Option String := none
  body : Option String := none
  data : Option (List (String × String)) := none
  TTL : Option Nat := none
deriving DecidableEq

/-- The JSON push payload built by `WebPushNotifier.send`. -/
structure WebPushPayload where
  title : String
  body : String
  data : List (String × String)
deriving DecidableEq

/-- The fallback for a missing metadata entry in `WebPushNotifier.send`:
`meta[i] ?? { title: "Notification", body: "", data: {} }`. -/
def defaultWebPushMeta : WebPushMeta :=
  { title := some "Notification", body := some "", data := some [] }

/-- The payload construction of `WebPushNotifier.send`:
`title: pushMeta.title || "Notification"`, `body: pushMeta.body || ""`,
`data: pushMeta.data || {}`. -/
def buildWebPushPayload (pushMeta : WebPushMeta) : WebPushPayload :=
  { title := jsOrString pushMeta.title "Notification"
    body := jsOrString pushMeta.body ""
    data := pushMeta.data.getD [] }

/-- The body of one scheduled unit of `WebPushNotifier.send`: invoke the
web-push capability on the decoded subscription and record a success or
failure result whose `recipient` is `subscription.endpoint`. -/
def webPushRec {ρ : Type} (cap : PushSubscription → WebPushPayload → Except String ρ)
    (subscription : PushSubscription) (pushMeta : WebPushMeta) : DispatchResult ρ :=
  match cap subscription (buildWebPushPayload pushMeta) with
  | .ok response =>
    { status := "success", recipient := subscription.endpoint, response := some response }
  | .error e =>
    { status := "failed", recipient := subscription.endpoint, error := some e }

/-- `WebPushNotifier.send`: first decode every recipient identifier with
`userIds.map((id) => JSON.parse(id))` — a decoding failure therefore throws
out of `send` before any dispatch — then dispatch one scheduled unit per
subscription, pairing index `i` with `meta[i] ?? default`. The batching of
the task list into groups of `maxConcurrentSends` only affects timing, not
which results are produced; it is modelled separately for the temporal
claim. -/
def WebPushNotifier.send {ρ : Type} (parseSub : String → Except String PushSubscription)
    (cap : PushSubscription → WebPushPayload → Except String ρ)
    (userIds : List String) (meta : List WebPushMeta) :
    Except String (List (DispatchResult ρ)) :=
  match mapJs parseSub userIds with
  | .error e => .error e
  | .ok subscriptions =>
    .ok ((withIdx 0 subscriptions).map
      (fun p => webPushRec cap p.2 ((meta[p.1]?).getD defaultWebPushMeta)))

/-! ## Indicator-shaped delivery capabilities

A delivery capability whose outcome depends only on the recipient: it fails
exactly on the recipients that `ok` rejects. Used to state the failure
isolation claims. -/

/-- A Firebase messaging capability that succeeds exactly on the tokens
accepted by `ok`. -/
def capOfIndicator {ρ : Type} (ok : String → Bool) (resp : String → ρ)
    (err : String → String) : String → MessagingPayload → Bool → Except String ρ :=
  fun u _ _ => if ok u then .ok (resp u) else .error (err u)

/-- A web-push capability that succeeds exactly on the subscriptions
accepted by `ok`. -/
def capWOfIndicator {ρ : Type} (ok : PushSubscription → Bool) (resp : PushSubscription → ρ)
    (err : PushSubscription → String) :
    PushSubscription → WebPushPayload → Except String ρ :=
  fun s _ => if ok s then .ok (resp s) else .error (err s)

/-! ## Concurrency bookkeeping of the concurrency-bounded adapter

`WebPushNotifier.send` caps in-flight sends with `maxConcurrentSends = 5`.
Two versions of the bookkeeping exist in the repository: the current one
awaits the whole task batch whenever `tasks.length === maxConcurrentSends`
and then empties the array, and a prior variant (embedded at the end of
`FirebaseNotifier.ts`) that awaits `Promise.race(activeSends)` whenever
`activeSends.length >= maxConcurrentSends` and then prunes the array with
`activeSends.filter((task) => !task.finally)`.

Both loops are modelled as deterministic step functions over counters under
the adversarial completion schedule in which a delivery promise resolves
only when the loop awaits it (the transport may be arbitrarily slow, and
the rate limiter, which admits 50 units per second by default, does not
delay the 10 submissions used below). `pending` counts submitted,
unresolved sends; `tracked` is the length of the loop's task array; `peak`
is the largest number of simultaneously pending sends seen so far. -/

/-- The hard concurrency ceiling of `WebPushNotifier.send`:
`const maxConcurrentSends = 5`. -/
def maxConcurrentSends : Nat := 5

/-- Loop-state counters for the concurrency bookkeeping models. -/
structure SendLoopState where
  pending : Nat
  tracked : Nat
  peak : Nat
deriving DecidableEq

/-- Every JavaScript promise has a `.finally` method, so the prune
predicate `(task) => !task.finally` of the prior variant is false for
every task. -/
def taskFinallyTruthy : Bool := true

/-- One iteration of the prior variant's loop: push the scheduled task,
and once `activeSends.length >= maxConcurrentSends`, await
`Promise.race(activeSends)` (one pending send resolves) and prune with
`activeSends.filter((task) => !task.finally)`, which keeps nothing. -/
def variantStep (s : SendLoopState) : SendLoopState :=
  if maxConcurrentSends ≤ s.tracked + 1 then
    { pending := s.pending + 1 - 1
      tracked := if !taskFinallyTruthy then s.tracked + 1 - 1 else 0
      peak := max s.peak (s.pending + 1) }
  else
    { pending := s.pending + 1
      tracked := s.tracked + 1
      peak := max s.peak (s.pending + 1) }

/-- The prior variant's loop over `n` recipients. -/
def variantRun : Nat → SendLoopState
  | 0 => { pending := 0, tracked := 0, peak := 0 }
  | n + 1 => variantStep (variantRun n)

/-- The prior variant after the final `await Promise.all(activeSends)`:
only the sends still in the (pruned) task array are awaited, so `send`
returns while `pending - tracked` sends are still unresolved. -/
def variantFinal (n : Nat) : SendLoopState :=
  let s := variantRun n
  { pending := s.pending - s.tracked, tracked := 0, peak := s.peak }

/-- One iteration of the current loop: push the scheduled task, and once
`tasks.length === maxConcurrentSends`, await `Promise.all(tasks)` (every
tracked send resolves) and clear the array. -/
def batchStep (s : SendLoopState) : SendLoopState :=
  if s.tracked + 1 = maxConcurrentSends then
    { pending := s.pending + 1 - (s.tracked + 1)
      tracked := 0
      peak := max s.peak (s.pending + 1) }
  else
    { pending := s.pending + 1
      tracked := s.tracked + 1
      peak := max s.peak (s.pending + 1) }

/-- The current loop over `n` recipients. -/
def batchRun : Nat → SendLoopState
  | 0 => { pending := 0, tracked := 0, peak := 0 }
  | n + 1 => batchStep (batchRun n)

/-- The current version after the trailing `await Promise.all(tasks)` over
the remaining partial batch. -/
def batchFinal (n : Nat) : SendLoopState :=
  let s := batchRun n
  { pending := s.pending - s.tracked, tracked := 0, peak := s.peak }

/-! ## Sequential chunk execution trace of the batch-oriented adapter

Modelled from the spec: `RateLimiter.schedule` (whose implementation,
`src/core/RateLimiter.ts`, is not part of the sources at hand) "returns a
handle that resolves when the unit has both been admitted under the rate
policy and completed" (spec §4.1). `FirebaseNotifier.send` awaits that
handle for each chunk before submitting the next, so execution is the
concatenation, chunk after chunk, of one start event and one finish event
per transport call of the chunk. Within a chunk the model emits all starts
before all finishes — the schedule with maximal concurrency. -/

/-- A transport-call event of the batch-oriented adapter's execution:
`messaging.send` starts or finishes for one recipient of one chunk. -/
inductive FanoutEvent where
  | start (chunk : Nat) (token : String)
  | finish (chunk : Nat) (token : String)
deriving DecidableEq

/-- The chunk a fan-out event belongs to. -/
def FanoutEvent.chunkIdx : FanoutEvent → Nat
  | .start k _ => k
  | .finish k _ => k

/-- Whether a fan-out event is the start of a transport call. -/
def FanoutEvent.isStart : FanoutEvent → Bool
  | .start _ _ => true
  | .finish _ _ => false

/-- The events of one scheduled chunk unit: every transport call of the
chunk starts, then every one finishes (the chunk unit resolves only after
`Promise.all` of its calls). -/
def chunkSegment (k : Nat) (tokens : List String) : List FanoutEvent :=
  tokens.map (FanoutEvent.start k) ++ tokens.map (FanoutEvent.finish k)

/-- The execution trace of the chunk loop, chunk `k` first. -/
def traceGo (k : Nat) : List (List String) → List FanoutEvent
  | [] => []
  | c :: cs => chunkSegment k c ++ traceGo (k + 1) cs

/-- The execution trace of `FirebaseNotifier.send` on `userIds`. -/
def firebaseTrace (userIds : List String) : List FanoutEvent :=
  traceGo 0 (chunkArray userIds 500)

/-- Transport calls started in a trace fragment. -/
def startCount (tr : List FanoutEvent) : Nat := tr.countP (fun e => e.isStart)

/-- Transport calls finished in a trace fragment. -/
def finishCount (tr : List FanoutEvent) : Nat := tr.countP (fun e => !e.isStart)

/-! ## Registry

Modelled from the spec: the implementation of `NotifierRegistry`
(`src/core/NotifierRegistry.ts`) is not among the sources at hand — only
its test suite is. Per spec §4.5 the registry is a process-wide mapping
from channel name to channel instance: `register` is an unconditional
insert-or-replace, `get` returns the registered channel or fails with a
not-registered error carrying the requested name (the test suite expects
the exact message `Notifier for <name> not registered`), and `clear`
empties the mapping. The mapping is passed explicitly as state. -/
def NotifierRegistry (χ : Type) : Type := String → Option χ

/-- The initially empty registry mapping. -/
def NotifierRegistry.empty {χ : Type} : NotifierRegistry χ := fun _ => none

/-- `NotifierRegistry.register(name, channel)`: insert-or-replace. -/
def NotifierRegistry.register {χ : Type} (r : NotifierRegistry χ) (name : String)
    (channel : χ) : NotifierRegistry χ :=
  fun n => if n = name then some channel else r n

/-- `NotifierRegistry.get(name)`: the registered channel, or a
not-registered error carrying the requested name. -/
def NotifierRegistry.get {χ : Type} (r : NotifierRegistry χ) (name : String) :
    Except String χ :=
  match r name with
  | some channel => .ok channel
  | none => .error ("Notifier for " ++ name ++ " not registered")

/-- `NotifierRegistry.clear()`: empty the mapping. -/
def NotifierRegistry.clear {χ : Type} (_ : NotifierRegistry χ) : NotifierRegistry χ :=
  fun _ => none

/-! ## Concrete capabilities for closed instantiations

The push providers and `JSON.parse` are external collaborators (spec §1,
§6); the theorems quantify over them as capability parameters. The
following small concrete instances exhibit the behaviours the capability
contracts allow — a decoder that rejects malformed identifiers, transports
that fail on designated recipients, and probes that echo the dispatched
payload back as the transport response. -/

/-- A concrete subscription decoder standing in for `JSON.parse` plus the
subscription shape: accepts two well-known serialized records, rejects
everything else the way `JSON.parse` throws on malformed input. -/
def toyParse (s : String) : Except String PushSubscription :=
  if s = "sub1" then .ok { endpoint := "ep1" }
  else if s = "sub2" then .ok { endpoint := "ep2" }
  else .error ("Unexpected token in JSON: " ++ s)

/-- A concrete web-push transport that fails on endpoint `ep2` only. -/
def toyCapW : PushSubscription → WebPushPayload → Except String String :=
  fun s _ => if s.endpoint = "ep2" then .error "push service rejected" else .ok "delivered"

/-- A concrete Firebase transport that fails on token `bad` only. -/
def toyCapF : String → MessagingPayload → Bool → Except String String :=
  fun u _ _ => if u = "bad" then .error "invalid registration token" else .ok "projects/msg-1"

/-- A Firebase transport probe echoing the dispatched payload and dry-run
flag back as the response. -/
def probeCapF : String → MessagingPayload → Bool → Except String (MessagingPayload × Bool) :=
  fun _ payload dryRun => .ok (payload, dryRun)

/-- A web-push transport probe echoing the dispatched payload back as the
response. -/
def probeCapW : PushSubscription → WebPushPayload → Except String WebPushPayload :=
  fun _ payload => .ok payload

/-- A recipient list that spans two chunks of the batch-oriented adapter:
501 identical device tokens. -/
def ids501 : List String := List.replicate 501 "u"

/-- A metadata entry with every field absent. -/
def fillerMeta : FirebaseMeta := {}

/-- A 501-entry metadata list whose entry 0 is titled `m0` and whose entry
500 is titled `m500`, for observing which entry the adapter pairs with the
recipient at global position 500. -/
def meta501 : List FirebaseMeta :=
  { title := some "m0" } :: (List.replicate 499 fillerMeta ++ [{ title := some "m500" }])

/-! ## Structural facts about the embedding -/

/-! ## Structural lemmas about the embedding -/

theorem withIdx_map_snd : ∀ (k : Nat) (l : List α), (withIdx k l).map Prod.snd = l
  | _, [] => rfl
  | k, a :: as => by simp [withIdx, withIdx_map_snd (k + 1) as]

theorem mem_withIdx_snd : ∀ {k : Nat} {l : List α} {p : Nat × α}, p ∈ withIdx k l → p.2 ∈ l := by
  intro k l
  induction l generalizing k with
  | nil => intro p h; simp [withIdx] at h
  | cons a as ih =>
    intro p h
    simp only [withIdx, List.mem_cons] at h
    rcases h with h | h
    · subst h; exact List.mem_cons_self a as
    · exact List.mem_cons_of_mem a (ih h)

theorem withIdx_getElem? : ∀ (k : Nat) (l : List α) (i : Nat),
    (withIdx k l)[i]? = l[i]?.map (fun a => (k + i, a))
  | _, [], i => by simp [withIdx]
  | k, a :: as, 0 => by simp [withIdx]
  | k, a :: as, i + 1 => by
    have h : k + 1 + i = k + (i + 1) := by omega
    simp only [withIdx, List.getElem?_cons_succ]
    rw [withIdx_getElem? (k + 1) as i, h]

theorem countP_withIdx (q : α → Bool) : ∀ (k : Nat) (l : List α),
    (withIdx k l).countP (fun p => q p.2) = l.countP q
  | _, [] => rfl
  | k, a :: as => by
    simp [withIdx, List.countP_cons, countP_withIdx q (k + 1) as]

theorem countP_bool_split (p : α → Bool) :
    ∀ l : List α, l.countP p + l.countP (fun a => !p a) = l.length
  | [] => rfl
  | a :: as => by
    cases h : p a <;>
      simp [List.countP_cons, h, ← countP_bool_split p as] <;> omega

theorem chunkArrayGo_flatten : ∀ (fuel : Nat) (l : List α) (cs : Nat),
    l.length ≤ fuel → (chunkArrayGo fuel l (cs + 1)).flatten = l
  | _, [], _, _ => by simp [chunkArrayGo]
  | 0, a :: as, cs, h => by simp at h
  | fuel + 1, a :: as, cs, h => by
    rw [chunkArrayGo]
    have hlen : ((a :: as).drop (cs + 1)).length ≤ fuel := by
      simp only [List.length_drop, List.length_cons]
      simp only [List.length_cons] at h
      omega
    simp only [List.flatten_cons]
    rw [chunkArrayGo_flatten fuel ((a :: as).drop (cs + 1)) cs hlen]
    exact List.take_append_drop (cs + 1) (a :: as)

theorem chunkArray_flatten (l : List α) (cs : Nat) :
    (chunkArray l (cs + 1)).flatten = l :=
  chunkArrayGo_flatten l.length l cs (Nat.le_refl _)

theorem chunkArrayGo_mem_length : ∀ (fuel : Nat) (l : List α) (cs : Nat),
    l.length ≤ fuel → ∀ c ∈ chunkArrayGo fuel l (cs + 1), c.length ≤ cs + 1
  | _, [], _, _ => by simp [chunkArrayGo]
  | 0, a :: as, cs, h => by simp at h
  | fuel + 1, a :: as, cs, h => by
    rw [chunkArrayGo]
    intro c hc
    have hlen : ((a :: as).drop (cs + 1)).length ≤ fuel := by
      simp only [List.length_drop, List.length_cons]
      simp only [List.length_cons] at h
      omega
    rcases List.mem_cons.1 hc with hc | hc
    · subst hc
      simp [List.length_take]
    · exact chunkArrayGo_mem_length fuel ((a :: as).drop (cs + 1)) cs hlen c hc

theorem chunkArray_mem_length (l : List α) (cs : Nat) :
    ∀ c ∈ chunkArray l (cs + 1), c.length ≤ cs + 1 :=
  chunkArrayGo_mem_length l.length l cs (Nat.le_refl _)

theorem foldl_append_eq_flatten (f : β → List γ) :
    ∀ (cs : List β) (acc : List γ),
      cs.foldl (fun r c => r ++ f c) acc = acc ++ (cs.map f).flatten
  | [], acc => by simp
  | c :: cs, acc => by
    simp only [List.foldl_cons, List.map_cons, List.flatten_cons]
    rw [foldl_append_eq_flatten f cs (acc ++ f c)]
    simp [List.append_assoc]

theorem firebase_send_eq {ρ : Type} (cap : String → MessagingPayload → Bool → Except String ρ)
    (userIds : List String) (meta : Option (List FirebaseMeta)) :
    FirebaseNotifier.send cap userIds meta
      = ((chunkArray userIds 500).map (chunkResults cap meta)).flatten := by
  unfold FirebaseNotifier.send
  rw [foldl_append_eq_flatten]
  simp

theorem firebaseSendRec_recipient {ρ : Type}
    (cap : String → MessagingPayload → Bool → Except String ρ)
    (meta : Option (List FirebaseMeta)) (i : Nat) (u : String) :
    (firebaseSendRec cap meta i u).recipient = u := by
  unfold firebaseSendRec
  dsimp only
  split <;> rfl

theorem chunkResults_map_recipient {ρ : Type}
    (cap : String → MessagingPayload → Bool → Except String ρ)
    (meta : Option (List FirebaseMeta)) (tokens : List String) :
    (chunkResults cap meta tokens).map (fun r => r.recipient) = tokens := by
  unfold chunkResults
  rw [List.map_map]
  have h : ((fun r : DispatchResult ρ => r.recipient) ∘
      fun p : Nat × String => firebaseSendRec cap meta p.1 p.2) = Prod.snd := by
    funext p
    exact firebaseSendRec_recipient cap meta p.1 p.2
  rw [h, withIdx_map_snd]

theorem firebase_send_map_recipient {ρ : Type}
    (cap : String → MessagingPayload → Bool → Except String ρ)
    (userIds : List String) (meta : Option (List FirebaseMeta)) :
    (FirebaseNotifier.send cap userIds meta).map (fun r => r.recipient) = userIds := by
  rw [firebase_send_eq, List.map_flatten, List.map_map]
  have h : ∀ tokens ∈ chunkArray userIds 500,
      ((fun l => l.map (fun r : DispatchResult ρ => r.recipient)) ∘ chunkResults cap meta) tokens
        = id tokens := by
    intro tokens _
    exact chunkResults_map_recipient cap meta tokens
  rw [List.map_congr_left h, List.map_id]
  exact chunkArray_flatten userIds 499

theorem firebase_send_length {ρ : Type}
    (cap : String → MessagingPayload → Bool → Except String ρ)
    (userIds : List String) (meta : Option (List FirebaseMeta)) :
    (FirebaseNotifier.send cap userIds meta).length = userIds.length := by
  have h := firebase_send_map_recipient cap userIds meta
  calc (FirebaseNotifier.send cap userIds meta).length
      = ((FirebaseNotifier.send cap userIds meta).map (fun r => r.recipient)).length :=
        (List.length_map _ _).symm
    _ = userIds.length := by rw [h]

theorem mem_firebase_send {ρ : Type} {cap : String → MessagingPayload → Bool → Except String ρ}
    {userIds : List String} {meta : Option (List FirebaseMeta)} {r : DispatchResult ρ}
    (h : r ∈ FirebaseNotifier.send cap userIds meta) :
    ∃ i u, u ∈ userIds ∧ r = firebaseSendRec cap meta i u := by
  rw [firebase_send_eq, List.mem_flatten] at h
  obtain ⟨block, hb, hr⟩ := h
  rw [List.mem_map] at hb
  obtain ⟨tokens, htok, rfl⟩ := hb
  unfold chunkResults at hr
  rw [List.mem_map] at hr
  obtain ⟨p, hp, rfl⟩ := hr
  refine ⟨p.1, p.2, ?_, rfl⟩
  have hmem : p.2 ∈ tokens := mem_withIdx_snd hp
  have : p.2 ∈ (chunkArray userIds 500).flatten := List.mem_flatten_of_mem htok hmem
  rwa [chunkArray_flatten userIds 499] at this

theorem mapJs_ok_length {f : α → Except ε β} :
    ∀ {l : List α} {bs : List β}, mapJs f l = .ok bs → bs.length = l.length := by
  intro l
  induction l with
  | nil =>
    intro bs h
    simp only [mapJs] at h
    cases h
    rfl
  | cons a as ih =>
    intro bs h
    simp only [mapJs] at h
    cases hfa : f a with
    | error e => rw [hfa] at h; cases h
    | ok b =>
      rw [hfa] at h
      cases hrec : mapJs f as with
      | error e => rw [hrec] at h; cases h
      | ok bs' =>
        rw [hrec] at h
        cases h
        simp [ih hrec]

theorem mapJs_error_of_mem {f : α → Except ε β} :
    ∀ {l : List α} {a : α} {e : ε}, a ∈ l → f a = .error e →
      ∃ e', mapJs f l = .error e' := by
  intro l
  induction l with
  | nil => intro a e h; cases h
  | cons b bs ih =>
    intro a e hmem hfa
    rcases List.mem_cons.1 hmem with rfl | hmem
    · exact ⟨e, by simp only [mapJs]; rw [hfa]⟩
    · cases hfb : f b with
      | error e0 => exact ⟨e0, by simp only [mapJs]; rw [hfb]⟩
      | ok b' =>
        obtain ⟨e', he'⟩ := ih hmem hfa
        exact ⟨e', by simp only [mapJs]; rw [hfb, he']⟩

theorem webpush_send_ok {ρ : Type} (parseSub : String → Except String PushSubscription)
    (cap : PushSubscription → WebPushPayload → Except String ρ)
    (userIds : List String) (meta : List WebPushMeta) (subs : List PushSubscription)
    (h : mapJs parseSub userIds = .ok subs) :
    WebPushNotifier.send parseSub cap userIds meta
      = .ok ((withIdx 0 subs).map
          (fun p => webPushRec cap p.2 ((meta[p.1]?).getD defaultWebPushMeta))) := by
  unfold WebPushNotifier.send
  rw [h]

theorem webPushRec_recipient {ρ : Type}
    (cap : PushSubscription → WebPushPayload → Except String ρ)
    (s : PushSubscription) (m : WebPushMeta) :
    (webPushRec cap s m).recipient = s.endpoint := by
  unfold webPushRec
  split <;> rfl

theorem webpush_results_map_recipient {ρ : Type}
    (cap : PushSubscription → WebPushPayload → Except String ρ)
    (meta : List WebPushMeta) (subs : List PushSubscription) :
    ((withIdx 0 subs).map
        (fun p => webPushRec cap p.2 ((meta[p.1]?).getD defaultWebPushMeta))).map
        (fun r => r.recipient)
      = subs.map (fun s => s.endpoint) := by
  rw [List.map_map]
  have h : ((fun r : DispatchResult ρ => r.recipient) ∘
      fun p : Nat × PushSubscription =>
        webPushRec cap p.2 ((meta[p.1]?).getD defaultWebPushMeta)) =
      ((fun s : PushSubscription => s.endpoint) ∘ Prod.snd) := by
    funext p
    exact webPushRec_recipient cap p.2 _
  rw [h, ← List.map_map, withIdx_map_snd]

theorem firebaseSendRec_indicator {ρ : Type} (ok : String → Bool) (resp : String → ρ)
    (err : String → String) (meta : Option (List FirebaseMeta)) (i : Nat) (u : String) :
    firebaseSendRec (capOfIndicator ok resp err) meta i u =
      if ok u then { status := "success", recipient := u, response := some (resp u) }
      else { status := "failed", recipient := u, error := some (err u) } := by
  unfold firebaseSendRec capOfIndicator
  dsimp only
  cases h : ok u <;> simp [h]

theorem webPushRec_indicator {ρ : Type} (ok : PushSubscription → Bool)
    (resp : PushSubscription → ρ) (err : PushSubscription → String)
    (s : PushSubscription) (m : WebPushMeta) :
    webPushRec (capWOfIndicator ok resp err) s m =
      if ok s then { status := "success", recipient := s.endpoint, response := some (resp s) }
      else { status := "failed", recipient := s.endpoint, error := some (err s) } := by
  unfold webPushRec capWOfIndicator
  cases h : ok s <;> simp [h]

theorem countP_eq_of_map {β α : Type _} {rs : List β} {ids : List α} (f : β → α)
    (p : β → Bool) (q : α → Bool) (hmap : rs.map f = ids)
    (hpt : ∀ r ∈ rs, p r = q (f r)) : rs.countP p = ids.countP q := by
  subst hmap
  rw [List.countP_map]
  exact List.countP_congr (by intro r hr; simp [hpt r hr, Function.comp])

theorem batchRun_invariant : ∀ n : Nat,
    (batchRun n).pending = (batchRun n).tracked ∧
    (batchRun n).tracked < maxConcurrentSends ∧
    (batchRun n).peak ≤ maxConcurrentSends := by
  intro n
  induction n with
  | zero => exact ⟨rfl, by simp [batchRun, maxConcurrentSends], by simp [batchRun]⟩
  | succ n ih =>
    obtain ⟨h1, h2, h3⟩ := ih
    have hmax : max (batchRun n).peak ((batchRun n).pending + 1) ≤ maxConcurrentSends := by
      rw [Nat.max_le]
      unfold maxConcurrentSends at *
      omega
    simp only [batchRun, batchStep]
    by_cases h : (batchRun n).tracked + 1 = maxConcurrentSends
    · rw [if_pos h]
      refine ⟨?_, ?_, hmax⟩
      · show (batchRun n).pending + 1 - ((batchRun n).tracked + 1) = 0
        omega
      · show 0 < maxConcurrentSends
        decide
    · rw [if_neg h]
      refine ⟨?_, ?_, hmax⟩
      · show (batchRun n).pending + 1 = (batchRun n).tracked + 1
        omega
      · show (batchRun n).tracked + 1 < maxConcurrentSends
        unfold maxConcurrentSends at *
        omega

theorem isStart_start (k : Nat) (t : String) : (FanoutEvent.start k t).isStart = true := rfl

theorem isStart_finish (k : Nat) (t : String) : (FanoutEvent.finish k t).isStart = false := rfl

theorem chunkSegment_counts (k : Nat) (c : List String) :
    startCount (chunkSegment k c) = c.length ∧ finishCount (chunkSegment k c) = c.length := by
  unfold chunkSegment startCount finishCount
  constructor <;>
    simp [List.countP_append, List.countP_map, Function.comp_def, isStart_start, isStart_finish]

theorem traceGo_inflight_le : ∀ (cs : List (List String)) (k : Nat) (p t : List FanoutEvent)
    (N : Nat), (∀ c ∈ cs, c.length ≤ N) → p ++ t = traceGo k cs →
    startCount p ≤ finishCount p + N := by
  intro cs
  induction cs with
  | nil =>
    intro k p t N _ h
    simp only [traceGo, List.append_eq_nil] at h
    simp [h.1, startCount, finishCount]
  | cons c cs ih =>
    intro k p t N hlen h
    simp only [traceGo] at h
    rcases List.append_eq_append_iff.1 h with ⟨a', hseg, _⟩ | ⟨c', hp, hc'⟩
    · -- p is a prefix of the segment of chunk k
      have hsub : List.Sublist p (chunkSegment k c) := by
        rw [hseg]; exact List.sublist_append_left p a'
      have hs : startCount p ≤ startCount (chunkSegment k c) :=
        hsub.countP_le _
      have hc : startCount (chunkSegment k c) = c.length := (chunkSegment_counts k c).1
      have hN : c.length ≤ N := hlen c (List.mem_cons_self c cs)
      unfold startCount finishCount at *
      omega
    · -- p covers the whole segment of chunk k and a prefix of the rest
      subst hp
      have hrec := ih (k + 1) c' t N (fun d hd => hlen d (List.mem_cons_of_mem c hd)) hc'.symm
      have h1 : startCount (chunkSegment k c ++ c') =
          startCount (chunkSegment k c) + startCount c' := by
        unfold startCount; rw [List.countP_append]
      have h2 : finishCount (chunkSegment k c ++ c') =
          finishCount (chunkSegment k c) + finishCount c' := by
        unfold finishCount; rw [List.countP_append]
      have hc3 := chunkSegment_counts k c
      omega

theorem mem_chunkSegment_chunkIdx {k : Nat} {c : List String} {e : FanoutEvent}
    (h : e ∈ chunkSegment k c) : e.chunkIdx = k := by
  unfold chunkSegment at h
  rcases List.mem_append.1 h with h | h <;>
    · obtain ⟨x, _, rfl⟩ := List.mem_map.1 h
      rfl

theorem mem_traceGo_chunkIdx : ∀ (cs : List (List String)) (k : Nat) (e : FanoutEvent),
    e ∈ traceGo k cs → k ≤ e.chunkIdx := by
  intro cs
  induction cs with
  | nil => intro k e h; simp [traceGo] at h
  | cons c cs ih =>
    intro k e h
    rcases List.mem_append.1 h with h | h
    · rw [mem_chunkSegment_chunkIdx h]
    · have := ih (k + 1) e h
      omega

theorem traceGo_chunk_mono : ∀ (cs : List (List String)) (k : Nat),
    (traceGo k cs).Pairwise (fun e e' => e.chunkIdx ≤ e'.chunkIdx) := by
  intro cs
  induction cs with
  | nil => intro k; simp [traceGo]
  | cons c cs ih =>
    intro k
    rw [traceGo, List.pairwise_append]
    refine ⟨?_, ih (k + 1), ?_⟩
    · exact List.pairwise_of_forall_mem_list (fun a ha b hb => by
        rw [mem_chunkSegment_chunkIdx ha, mem_chunkSegment_chunkIdx hb])
    · intro a ha b hb
      rw [mem_chunkSegment_chunkIdx ha]
      have := mem_traceGo_chunkIdx cs (k + 1) b hb
      omega

theorem withIdx_length : ∀ (k : Nat) (l : List α), (withIdx k l).length = l.length := by
  intro k l
  calc (withIdx k l).length = ((withIdx k l).map Prod.snd).length := (List.length_map _ _).symm
    _ = l.length := by rw [withIdx_map_snd]

/-! ## The claims -/

/-- C1, counterexample: a single recipient whose identifier is not valid
JSON makes `WebPushNotifier.send` raise a request-level decoding error, so
no result sequence (which the claim requires to have exactly one entry) is
returned at all. -/
theorem claim1_counterexample :
    WebPushNotifier.send toyParse toyCapW ["notjson"] []
        = Except.error "Unexpected token in JSON: notjson" ∧
    (WebPushNotifier.send toyParse toyCapW ["notjson"] []).toOption = none :=
  ⟨rfl, rfl⟩

/-- C1, amended: for every recipient list of length `n` and any metadata
list, `FirebaseNotifier.send` returns exactly `n` results; and
`WebPushNotifier.send` returns exactly `n` results provided every
recipient identifier decodes into a subscription record (when one does
not, `send` raises before any dispatch). -/
theorem claim1_send_cardinality :
    (∀ (ρ : Type) (cap : String → MessagingPayload → Bool → Except String ρ)
        (userIds : List String) (meta : Option (List FirebaseMeta)),
      (FirebaseNotifier.send cap userIds meta).length = userIds.length) ∧
    (∀ (ρ : Type) (parseSub : String → Except String PushSubscription)
        (cap : PushSubscription → WebPushPayload → Except String ρ)
        (userIds : List String) (meta : List WebPushMeta)
        (subs : List PushSubscription),
      mapJs parseSub userIds = .ok subs →
      ∃ rs, WebPushNotifier.send parseSub cap userIds meta = .ok rs ∧
        rs.length = userIds.length) := by
  constructor
  · intro ρ cap userIds meta
    exact firebase_send_length cap userIds meta
  · intro ρ parseSub cap userIds meta subs h
    refine ⟨_, webpush_send_ok parseSub cap userIds meta subs h, ?_⟩
    rw [List.length_map, withIdx_length]
    exact mapJs_ok_length h

/-- C1, witness: three recipients for the batch adapter, two decodable
recipients for the concurrency-bounded adapter. -/
theorem claim1_send_cardinality_witness :
    (FirebaseNotifier.send toyCapF ["a", "bad", "c"] none).length = 3 ∧
    ∃ rs, WebPushNotifier.send toyParse toyCapW ["sub1", "sub2"] [] = .ok rs ∧
      rs.length = 2 :=
  ⟨claim1_send_cardinality.1 String toyCapF ["a", "bad", "c"] none,
   claim1_send_cardinality.2 String toyParse toyCapW ["sub1", "sub2"] []
     [{ endpoint := "ep1" }, { endpoint := "ep2" }] rfl⟩

/-- C4, counterexample: an undecodable recipient identifier makes
`WebPushNotifier.send` raise a request-level error, returning no results at
all — also none for the decodable sibling recipient `sub1`. -/
theorem claim4_counterexample :
    WebPushNotifier.send toyParse toyCapW ["notjson", "sub1"] []
        = Except.error "Unexpected token in JSON: notjson" ∧
    (WebPushNotifier.send toyParse toyCapW ["notjson", "sub1"] []).toOption = none :=
  ⟨rfl, rfl⟩

/-- C4, amended: a recipient identifier that fails to decode causes
`WebPushNotifier.send` to raise a request-level error — the identifiers are
all decoded eagerly before any dispatch — so no per-recipient result is
recorded, not even for the sibling recipients. -/
theorem claim4_decode_error_request_level :
    ∀ (ρ : Type) (parseSub : String → Except String PushSubscription)
      (cap : PushSubscription → WebPushPayload → Except String ρ)
      (userIds : List String) (meta : List WebPushMeta) (r e : String),
      r ∈ userIds → parseSub r = .error e →
      ∃ e', WebPushNotifier.send parseSub cap userIds meta = .error e' := by
  intro ρ parseSub cap userIds meta r e hmem hr
  obtain ⟨e', he'⟩ := mapJs_error_of_mem hmem hr
  exact ⟨e', by unfold WebPushNotifier.send; rw [he']⟩

/-- C4, witness: the undecodable identifier sits behind a decodable one. -/
theorem claim4_decode_error_witness :
    ("notjson" ∈ ["sub1", "notjson"]) ∧
    ∃ e', WebPushNotifier.send toyParse toyCapW ["sub1", "notjson"] []
        = .error e' :=
  ⟨by decide,
   claim4_decode_error_request_level String toyParse toyCapW ["sub1", "notjson"] []
     "notjson" "Unexpected token in JSON: notjson" (by decide) rfl⟩

/-- C6, counterexample: the concurrency-bounded adapter records the decoded
subscription's endpoint as the `recipient` field, not the serialized
subscription string `sub1` that was passed in. -/
theorem claim6_counterexample :
    (WebPushNotifier.send toyParse toyCapW ["sub1"] []).toOption.map
        (fun rs => rs.map (fun r => r.recipient)) = some ["ep1"] ∧
    ("ep1" : String) ≠ "sub1" :=
  ⟨rfl, by decide⟩

/-- C6, amended: for the batch-oriented adapter the recipient fields of the
results are exactly the input identifiers (in input order, hence the same
multiset); for the concurrency-bounded adapter the recipient fields are the
endpoints of the decoded subscriptions, in input order — a value derived
from each input identifier, not the identifier itself. -/
theorem claim6_recipient_identity :
    (∀ (ρ : Type) (cap : String → MessagingPayload → Bool → Except String ρ)
        (userIds : List String) (meta : Option (List FirebaseMeta)),
      (FirebaseNotifier.send cap userIds meta).map (fun r => r.recipient) = userIds) ∧
    (∀ (ρ : Type) (parseSub : String → Except String PushSubscription)
        (cap : PushSubscription → WebPushPayload → Except String ρ)
        (userIds : List String) (meta : List WebPushMeta)
        (subs : List PushSubscription),
      mapJs parseSub userIds = .ok subs →
      ∃ rs, WebPushNotifier.send parseSub cap userIds meta = .ok rs ∧
        rs.map (fun r => r.recipient) = subs.map (fun s => s.endpoint)) := by
  constructor
  · intro ρ cap userIds meta
    exact firebase_send_map_recipient cap userIds meta
  · intro ρ parseSub cap userIds meta subs h
    exact ⟨_, webpush_send_ok parseSub cap userIds meta subs h,
      webpush_results_map_recipient cap meta subs⟩

/-- C6, witness: concrete recipients for both adapters. -/
theorem claim6_recipient_identity_witness :
    (FirebaseNotifier.send toyCapF ["a", "bad"] none).map (fun r => r.recipient)
        = ["a", "bad"] ∧
    ∃ rs, WebPushNotifier.send toyParse toyCapW ["sub2", "sub1"] [] = .ok rs ∧
      rs.map (fun r => r.recipient) = ["ep2", "ep1"] :=
  ⟨claim6_recipient_identity.1 String toyCapF ["a", "bad"] none,
   claim6_recipient_identity.2 String toyParse toyCapW ["sub2", "sub1"] []
     [{ endpoint := "ep2" }, { endpoint := "ep1" }] rfl⟩

set_option maxRecDepth 100000

/-- C3, the failing input evaluated: in a 501-recipient send spanning two
chunks, the recipient at global position 500 is dispatched with the payload
built from metadata entry 0 (title `m0`) — the callback's chunk-local index
— although metadata entry 500 (title `m500`) is present; the metadata
sequence does not stay index-aligned across the chunk boundary. -/
theorem claim3_chunk_local_meta_index :
    ((FirebaseNotifier.send probeCapF ids501 (some meta501))[500]?).map
        (fun r => r.response)
      = some (some ({ title := "m0", body := "", data := [] }, false)) ∧
    (meta501[500]?).bind (fun m => m.title) = some "m500" ∧
    ("m0" : String) ≠ "m500" := by
  refine ⟨?_, by decide, by decide⟩
  rfl

/-- C5, the failing input evaluated: with 10 recipients whose sends resolve
only when the loop awaits them, the prior variant's bookkeeping — pruning
the in-flight array with the always-false predicate
`(task) => !task.finally` — reaches 9 simultaneously pending sends, above
the ceiling of 5, and returns while 8 sends are still unresolved. The
current batch bookkeeping keeps the peak within the ceiling and resolves
every send before returning, for every recipient count. -/
theorem claim5_variant_breaks_ceiling :
    (variantFinal 10).peak = 9 ∧
    maxConcurrentSends < (variantFinal 10).peak ∧
    (variantFinal 10).pending = 8 ∧
    (∀ n : Nat,
      (batchFinal n).peak ≤ maxConcurrentSends ∧ (batchFinal n).pending = 0) := by
  refine ⟨by decide, by decide, by decide, ?_⟩
  intro n
  obtain ⟨h1, h2, h3⟩ := batchRun_invariant n
  constructor
  · show (batchRun n).peak ≤ maxConcurrentSends
    exact h3
  · show (batchRun n).pending - (batchRun n).tracked = 0
    omega

/-- C8: a recipient of the batch-oriented adapter whose metadata entry is
missing — the whole metadata argument absent, or the looked-up entry
present with every field missing — is dispatched with exactly the default
payload: the fixed placeholder title, empty body, empty data mapping, and
dry-run false (observed through the payload-echoing probe capability). -/
theorem claim8_firebase_default_payload :
    (∀ (userIds : List String) (r : DispatchResult (MessagingPayload × Bool)),
      r ∈ FirebaseNotifier.send probeCapF userIds none →
      r.response
        = some ({ title := "Default Notification", body := "", data := [] }, false)) ∧
    (∀ (meta : Option (List FirebaseMeta)) (i : Nat) (uid : String),
      meta.bind (fun m => m[i]?) = some fillerMeta →
      (firebaseSendRec probeCapF meta i uid).response
        = some ({ title := "Default Notification", body := "", data := [] }, false)) := by
  constructor
  · intro userIds r hr
    obtain ⟨i, u, _, rfl⟩ := mem_firebase_send hr
    rfl
  · intro meta i uid h
    simp only [firebaseSendRec]
    rw [h]
    rfl

/-- C8, witness: the single result of a one-recipient send without
metadata, and a per-recipient dispatch whose looked-up entry has every
field missing. -/
theorem claim8_firebase_default_payload_witness :
    ({ status := "success", recipient := "a",
       response := some ({ title := "Default Notification", body := "", data := [] }, false) }
      : DispatchResult (MessagingPayload × Bool)).response
        = some ({ title := "Default Notification", body := "", data := [] }, false) ∧
    (firebaseSendRec probeCapF (some [fillerMeta]) 0 "u").response
        = some ({ title := "Default Notification", body := "", data := [] }, false) :=
  ⟨claim8_firebase_default_payload.1 ["a"] _ (by decide),
   claim8_firebase_default_payload.2 (some [fillerMeta]) 0 "u" (by decide)⟩

/-- C9: registering twice under one name resolves to the second channel and
no longer to the first, and looking up a never-registered (or cleared) name
fails with a not-registered error whose message contains the requested
name. -/
theorem claim9_registry_replace_and_missing :
    (∀ (χ : Type) (r : NotifierRegistry χ) (x : String) (A B : χ),
      ((r.register x A).register x B).get x = .ok B ∧
      (A ≠ B → ((r.register x A).register x B).get x ≠ .ok A)) ∧
    (∀ (χ : Type) (r : NotifierRegistry χ) (name : String),
      r name = none →
      ∃ pre post, r.get name = .error (pre ++ name ++ post)) ∧
    (∀ (χ : Type) (r : NotifierRegistry χ) (name : String),
      ∃ pre post, (r.clear).get name = .error (pre ++ name ++ post)) := by
  refine ⟨?_, ?_, ?_⟩
  · intro χ r x A B
    constructor
    · simp [NotifierRegistry.get, NotifierRegistry.register]
    · intro hAB
      simp only [NotifierRegistry.get, NotifierRegistry.register, if_pos]
      intro hc
      injection hc with h
      exact hAB h.symm
  · intro χ r name h
    unfold NotifierRegistry.get
    rw [h]
    exact ⟨"Notifier for ", " not registered", rfl⟩
  · intro χ r name
    exact ⟨"Notifier for ", " not registered", rfl⟩

/-- C9, witness: two registrations of `x` followed by a lookup, and a
lookup of the never-registered name `missing` on the empty and on a cleared
registry. -/
theorem claim9_registry_witness :
    (((NotifierRegistry.empty : NotifierRegistry Nat).register "x" 1).register "x" 2).get "x"
        = .ok 2 ∧
    ((((NotifierRegistry.empty : NotifierRegistry Nat).register "x" 1).register "x" 2).get "x"
        ≠ .ok 1) ∧
    (∃ pre post, (NotifierRegistry.empty : NotifierRegistry Nat).get "missing"
        = .error (pre ++ "missing" ++ post)) ∧
    (∃ pre post,
      ((NotifierRegistry.empty : NotifierRegistry Nat).clear).get "missing"
        = .error (pre ++ "missing" ++ post)) :=
  ⟨(claim9_registry_replace_and_missing.1 Nat NotifierRegistry.empty "x" 1 2).1,
   (claim9_registry_replace_and_missing.1 Nat NotifierRegistry.empty "x" 1 2).2 (by decide),
   claim9_registry_replace_and_missing.2.1 Nat NotifierRegistry.empty "missing" rfl,
   claim9_registry_replace_and_missing.2.2 Nat NotifierRegistry.empty "missing"⟩

theorem countP_map_list {α β : Type _} (g : α → β) (l : List α) (p : β → Bool)
    (q : α → Bool) (h : ∀ a ∈ l, p (g a) = q a) :
    (l.map g).countP p = l.countP q := by
  rw [List.countP_map]
  exact List.countP_congr (fun a ha => by simp [Function.comp, h a ha])

/-- C2: with a delivery capability that fails for exactly one recipient of
the list and succeeds for all others, `send` returns `n - 1` results with
status success and exactly one result with status failed carrying an error
message; nothing is raised out of `send`, and every result's status is
determined by its own recipient alone — for both adapters. -/
theorem claim2_single_failure_isolation :
    (∀ (ρ : Type) (ok : String → Bool) (resp : String → ρ) (err : String → String)
        (userIds : List String) (meta : Option (List FirebaseMeta)),
      userIds.countP (fun u => !ok u) = 1 →
      (FirebaseNotifier.send (capOfIndicator ok resp err) userIds meta).countP
          (fun r => r.status == "failed") = 1 ∧
      (FirebaseNotifier.send (capOfIndicator ok resp err) userIds meta).countP
          (fun r => r.status == "success") = userIds.length - 1 ∧
      (∀ r ∈ FirebaseNotifier.send (capOfIndicator ok resp err) userIds meta,
        (r.status = "failed" → r.error.isSome) ∧
        r.status = (if ok r.recipient then "success" else "failed"))) ∧
    (∀ (ρ : Type) (ok : PushSubscription → Bool) (resp : PushSubscription → ρ)
        (err : PushSubscription → String)
        (parseSub : String → Except String PushSubscription)
        (userIds : List String) (meta : List WebPushMeta)
        (subs : List PushSubscription),
      mapJs parseSub userIds = .ok subs →
      subs.countP (fun s => !ok s) = 1 →
      ∃ rs, WebPushNotifier.send parseSub (capWOfIndicator ok resp err) userIds meta
          = .ok rs ∧
        rs.countP (fun r => r.status == "failed") = 1 ∧
        rs.countP (fun r => r.status == "success") = userIds.length - 1 ∧
        ∀ r ∈ rs, (r.status = "failed" → r.error.isSome)) := by
  constructor
  · intro ρ ok resp err userIds meta hone
    have hpoint : ∀ r ∈ FirebaseNotifier.send (capOfIndicator ok resp err) userIds meta,
        (r.status = "failed" → r.error.isSome) ∧
        r.status = (if ok r.recipient then "success" else "failed") := by
      intro r hr
      obtain ⟨i, u, _, rfl⟩ := mem_firebase_send hr
      rw [firebaseSendRec_indicator]
      cases h : ok u <;> simp [h]
    have hfail : (FirebaseNotifier.send (capOfIndicator ok resp err) userIds meta).countP
        (fun r => r.status == "failed") = userIds.countP (fun u => !ok u) := by
      refine countP_eq_of_map (fun r => r.recipient) _ _
        (firebase_send_map_recipient _ _ _) ?_
      intro r hr
      have h2 := (hpoint r hr).2
      cases h : ok r.recipient <;> simp [h2, h]
    have hsucc : (FirebaseNotifier.send (capOfIndicator ok resp err) userIds meta).countP
        (fun r => r.status == "success") = userIds.countP ok := by
      refine countP_eq_of_map (fun r => r.recipient) _ _
        (firebase_send_map_recipient _ _ _) ?_
      intro r hr
      have h2 := (hpoint r hr).2
      cases h : ok r.recipient <;> simp [h2, h]
    have htot := countP_bool_split ok userIds
    refine ⟨by rw [hfail, hone], by rw [hsucc]; omega, hpoint⟩
  · intro ρ ok resp err parseSub userIds meta subs hparse hone
    have hlen : subs.length = userIds.length := mapJs_ok_length hparse
    refine ⟨_, webpush_send_ok parseSub _ userIds meta subs hparse, ?_, ?_, ?_⟩
    · rw [countP_map_list _ _ _ (fun p : Nat × PushSubscription => !ok p.2) ?_]
      · rw [countP_withIdx (fun s => !ok s) 0 subs, hone]
      · intro p _
        rw [webPushRec_indicator]
        cases h : ok p.2 <;> simp [h]
    · rw [countP_map_list _ _ _ (fun p : Nat × PushSubscription => ok p.2) ?_]
      · rw [countP_withIdx ok 0 subs]
        have htot := countP_bool_split ok subs
        omega
      · intro p _
        rw [webPushRec_indicator]
        cases h : ok p.2 <;> simp [h]
    · intro r hr
      obtain ⟨p, _, rfl⟩ := List.mem_map.1 hr
      rw [webPushRec_indicator]
      cases h : ok p.2 <;> simp [h]

/-- C2, witness: among three tokens exactly `bad` fails for the batch
adapter; among two subscriptions exactly the one with endpoint `ep2` fails
for the concurrency-bounded adapter. -/
theorem claim2_single_failure_isolation_witness :
    (FirebaseNotifier.send
        (capOfIndicator (fun u => !(u == "bad")) (fun _ => "r") (fun _ => "boom"))
        ["a", "bad", "c"] none).countP (fun r => r.status == "failed") = 1 ∧
    (FirebaseNotifier.send
        (capOfIndicator (fun u => !(u == "bad")) (fun _ => "r") (fun _ => "boom"))
        ["a", "bad", "c"] none).countP (fun r => r.status == "success") = 2 ∧
    (∃ rs, WebPushNotifier.send toyParse
        (capWOfIndicator (fun s => !(s.endpoint == "ep2")) (fun _ => "r") (fun _ => "boom"))
        ["sub1", "sub2"] [] = .ok rs ∧
      rs.countP (fun r => r.status == "failed") = 1 ∧
      rs.countP (fun r => r.status == "success") = 1 ∧
      ∀ r ∈ rs, (r.status = "failed" → r.error.isSome)) :=
  ⟨(claim2_single_failure_isolation.1 String (fun u => !(u == "bad"))
      (fun _ => "r") (fun _ => "boom") ["a", "bad", "c"] none (by decide)).1,
   (claim2_single_failure_isolation.1 String (fun u => !(u == "bad"))
      (fun _ => "r") (fun _ => "boom") ["a", "bad", "c"] none (by decide)).2.1,
   claim2_single_failure_isolation.2 String (fun s => !(s.endpoint == "ep2"))
     (fun _ => "r") (fun _ => "boom") toyParse ["sub1", "sub2"] []
     [{ endpoint := "ep1" }, { endpoint := "ep2" }] rfl (by decide)⟩

/-- C7: a metadata argument that is absent or strictly shorter than the
recipient list never makes `send` raise — both adapters still return one
result per recipient — and every metadata entry whose lookup misses falls
back to the transport defaults (observed through the payload-echoing
probes). The concurrency-bounded adapter's metadata parameter is required
by its signature, so only the shorter case arises there. -/
theorem claim7_short_metadata_tolerated :
    (∀ (ρ : Type) (cap : String → MessagingPayload → Bool → Except String ρ)
        (userIds : List String) (meta : Option (List FirebaseMeta)),
      (FirebaseNotifier.send cap userIds meta).length = userIds.length) ∧
    (∀ (ρ : Type) (parseSub : String → Except String PushSubscription)
        (cap : PushSubscription → WebPushPayload → Except String ρ)
        (userIds : List String) (meta : List WebPushMeta)
        (subs : List PushSubscription),
      mapJs parseSub userIds = .ok subs →
      ∃ rs, WebPushNotifier.send parseSub cap userIds meta = .ok rs ∧
        rs.length = userIds.length) ∧
    (∀ (meta : Option (List FirebaseMeta)) (i : Nat) (uid : String),
      meta.bind (fun m => m[i]?) = none →
      (firebaseSendRec probeCapF meta i uid).response
        = some ({ title := "Default Notification", body := "", data := [] }, false)) ∧
    (∀ (parseSub : String → Except String PushSubscription)
        (userIds : List String) (meta : List WebPushMeta)
        (subs : List PushSubscription) (i : Nat),
      mapJs parseSub userIds = .ok subs →
      meta.length ≤ i →
      ∃ rs, WebPushNotifier.send parseSub probeCapW userIds meta = .ok rs ∧
        (rs[i]?).map (fun r => r.response)
          = (subs[i]?).map
              (fun _ => some { title := "Notification", body := "", data := [] })) := by
  refine ⟨?_, ?_, ?_, ?_⟩
  · intro ρ cap userIds meta
    exact firebase_send_length cap userIds meta
  · intro ρ parseSub cap userIds meta subs h
    refine ⟨_, webpush_send_ok parseSub cap userIds meta subs h, ?_⟩
    rw [List.length_map, withIdx_length]
    exact mapJs_ok_length h
  · intro meta i uid h
    simp only [firebaseSendRec]
    rw [h]
    rfl
  · intro parseSub userIds meta subs i hparse hlen
    refine ⟨_, webpush_send_ok parseSub probeCapW userIds meta subs hparse, ?_⟩
    rw [List.getElem?_map, withIdx_getElem? 0 subs i]
    cases hsi : subs[i]? with
    | none => rfl
    | some s =>
      simp only [Option.map_some']
      rw [Nat.zero_add, List.getElem?_eq_none hlen]
      rfl

/-- C7, witness: a two-recipient send with a one-entry metadata list for
each adapter, a missed metadata lookup for the batch adapter, and the
result at position 1 of a concurrency-bounded send with an empty metadata
list. -/
theorem claim7_short_metadata_tolerated_witness :
    (FirebaseNotifier.send toyCapF ["a", "b"] (some [{ title := some "t" }])).length = 2 ∧
    (∃ rs, WebPushNotifier.send toyParse toyCapW ["sub1", "sub2"] [defaultWebPushMeta]
        = .ok rs ∧ rs.length = 2) ∧
    (firebaseSendRec probeCapF (some [{ title := some "t" }]) 1 "b").response
        = some ({ title := "Default Notification", body := "", data := [] }, false) ∧
    (∃ rs, WebPushNotifier.send toyParse probeCapW ["sub1", "sub2"] [] = .ok rs ∧
      (rs[1]?).map (fun r => r.response)
        = (([{ endpoint := "ep1" }, { endpoint := "ep2" }] : List PushSubscription)[1]?).map
            (fun _ => some { title := "Notification", body := "", data := [] })) :=
  ⟨claim7_short_metadata_tolerated.1 String toyCapF ["a", "b"] (some [{ title := some "t" }]),
   claim7_short_metadata_tolerated.2.1 String toyParse toyCapW ["sub1", "sub2"]
     [defaultWebPushMeta] [{ endpoint := "ep1" }, { endpoint := "ep2" }] rfl,
   claim7_short_metadata_tolerated.2.2.1 (some [{ title := some "t" }]) 1 "b" (by decide),
   claim7_short_metadata_tolerated.2.2.2 toyParse ["sub1", "sub2"] []
     [{ endpoint := "ep1" }, { endpoint := "ep2" }] 1 rfl (by decide)⟩

/-- C10: the batch-oriented adapter processes chunks strictly sequentially:
in the execution trace at most 500 transport calls — one chunk — are in
flight at any instant (starts never exceed finishes by more than 500 on
any prefix), every event of a chunk precedes every event of later chunks,
and the returned result list is ordered by chunk (its recipients are the
input list in input order). -/
theorem claim10_sequential_chunks :
    (∀ (userIds : List String) (p t : List FanoutEvent),
      p ++ t = firebaseTrace userIds →
      startCount p ≤ finishCount p + 500) ∧
    (∀ userIds : List String,
      (firebaseTrace userIds).Pairwise (fun e e' => e.chunkIdx ≤ e'.chunkIdx)) ∧
    (∀ (ρ : Type) (cap : String → MessagingPayload → Bool → Except String ρ)
        (userIds : List String) (meta : Option (List FirebaseMeta)),
      (FirebaseNotifier.send cap userIds meta).map (fun r => r.recipient) = userIds) := by
  refine ⟨?_, ?_, ?_⟩
  · intro userIds p t h
    exact traceGo_inflight_le (chunkArray userIds 500) 0 p t 500
      (chunkArray_mem_length userIds 499) h
  · intro userIds
    exact traceGo_chunk_mono (chunkArray userIds 500) 0
  · intro ρ cap userIds meta
    exact firebase_send_map_recipient cap userIds meta

/-- C10, witness: the prefix that has started but not finished the single
call of a one-recipient trace. -/
theorem claim10_sequential_chunks_witness :
    startCount [FanoutEvent.start 0 "a"] ≤ finishCount [FanoutEvent.start 0 "a"] + 500 ∧
    (firebaseTrace ["a"]).Pairwise (fun e e' => e.chunkIdx ≤ e'.chunkIdx) ∧
    (FirebaseNotifier.send toyCapF ["a"] none).map (fun r => r.recipient) = ["a"] :=
  ⟨claim10_sequential_chunks.1 ["a"] [FanoutEvent.start 0 "a"] [FanoutEvent.finish 0 "a"] rfl,
   claim10_sequential_chunks.2.1 ["a"],
   claim10_sequential_chunks.2.2 String toyCapF ["a"] none⟩
